import Mathlib

/-!
Shallow embedding of the musicrec repository (src/utility.py, src/backend.py)
and proofs about its claims.

Tables (pandas DataFrames persisted as CSV files) are modelled as Lean lists
of records, one structure per schema; row order models file order.  Random
draws (`DataFrame.sample`) and external services (the Spotify client, the
fitted NearestNeighbors model, sklearn's scaler/k-means) are passed in as
explicit parameters, so every definition stays executable and deterministic.
-/

deriving instance DecidableEq for Except

namespace MusicRec

/-- pandas `drop_duplicates(subset=key)` (and, with `key = id`, the plain
`drop_duplicates()`): keep the first row for each key value, preserving the
order of first occurrences. -/
def dedupByKey {α κ : Type} [DecidableEq κ] (key : α → κ) : List α → List α
  | [] => []
  | x :: xs => x :: dedupByKey key (xs.filter fun y => decide (key y ≠ key x))
termination_by l => l.length
decreasing_by
  simp only [List.length_cons]
  exact Nat.lt_succ_of_le (List.length_filter_le _ _)

/-- Keys of a table are pairwise distinct (what `drop_duplicates(subset=key)`
establishes and what a healthy CSV maintained by the save functions has). -/
def keysDistinct {α κ : Type} [DecidableEq κ] (key : α → κ) (l : List α) : Prop :=
  l.Pairwise fun a b => key a ≠ key b

/-- A row of `jpop_dataset.csv` (track metadata; the fields written by
`save_to_csv` callers, e.g. the `track_data` dict of src/backend.py). -/
structure TrackRec where
  track_id : String
  track_name : String
  artist_name : String
  album_name : String
  release_date : String
  popularity : Int
deriving DecidableEq, Repr

/-- A row of `audio_features_dataset.csv` (the dict built in
`get_audio_features`, src/utility.py lines 36-49). -/
structure AudioRec where
  track_id : String
  danceability : ℚ
  energy : ℚ
  key : ℚ
  loudness : ℚ
  mode : ℚ
  speechiness : ℚ
  acousticness : ℚ
  instrumentalness : ℚ
  liveness : ℚ
  valence : ℚ
  tempo : ℚ
deriving DecidableEq, Repr

/-- A row of `combined_dataset.csv`: the inner merge of the two tables on
`track_id` (src/utility.py line 95), carrying every column of both sides.
The merge key is equal in both components by construction. -/
structure CombRec where
  meta : TrackRec
  audio : AudioRec
deriving DecidableEq, Repr

/-- The persistent CSV state read and written by src/utility.py:
`jpop_dataset.csv`, `audio_features_dataset.csv`, `combined_dataset.csv`. -/
@[ext]
structure Store where
  jpop : List TrackRec
  audio : List AudioRec
  combined : List CombRec
deriving DecidableEq, Repr

/-- `pd.merge(jpop_df_filtered, audio_df_filtered, on='track_id',
how='inner')` (src/utility.py line 95): every metadata row pairs with each
feature row carrying the same `track_id`, in left-table order. -/
def mergeInner (jpop_rows : List TrackRec) (audio_rows : List AudioRec) : List CombRec :=
  jpop_rows.flatMap fun j =>
    (audio_rows.filter fun a => decide (a.track_id = j.track_id)).map fun a => ⟨j, a⟩

/-- `save_to_csv(tracks, filename)` (src/utility.py lines 141-155): the
incoming batch is deduplicated by `track_id`, concatenated after the
existing rows, and the concatenation deduplicated again keeping first
occurrences, so an id that already exists keeps its existing row. -/
def save_to_csv (tracks : List TrackRec) (existing : List TrackRec) : List TrackRec :=
  dedupByKey TrackRec.track_id (existing ++ dedupByKey TrackRec.track_id tracks)

/-- `save_audio_features_to_csv` (src/utility.py lines 52-77): append exactly
those incoming feature rows whose `track_id` is not already present; the
existing rows are untouched (the file is opened in append mode). -/
def save_audio_features_to_csv (audio_features : List AudioRec)
    (existing : List AudioRec) : List AudioRec :=
  existing ++ audio_features.filter fun feature =>
    decide (feature.track_id ∉ existing.map AudioRec.track_id)

/-- `get_audio_features(track_ids, sp)` (src/utility.py lines 22-50): walk
`track_ids` in slices of 100 (`range(0, len(track_ids), 100)`), and for each
slice keep one feature record per non-null response — `lookup id = none`
models a null entry in the `sp.audio_features` reply, skipped by the
`if features` guard of the list comprehension. -/
def get_audio_features (track_ids : List String)
    (lookup : String → Option AudioRec) : List AudioRec :=
  match track_ids with
  | [] => []
  | t :: ts => ((t :: ts).take 100).filterMap lookup ++
      get_audio_features ((t :: ts).drop 100) lookup
termination_by track_ids.length
decreasing_by
  simp only [List.length_drop, List.length_cons]
  omega

/-- `data_clean()` (src/utility.py lines 79-98) as a function of the CSV
state.  `remove_comma` (lines 93-94) only strips trailing commas from the
raw text, the identity at the table level, so it does not appear here.  The
`track_name_x`/`track_name_y` collision branch (lines 96-97) cannot fire in
this schema because the audio-features table has no `track_name` column. -/
def data_clean (s : Store) : Store :=
  let jpop_df := dedupByKey TrackRec.track_id s.jpop
  let audio_df := dedupByKey AudioRec.track_id s.audio
  let jpop_filtered := jpop_df.filter fun r =>
    decide (r.track_id ∈ jpop_df.map TrackRec.track_id ∧
      r.track_id ∈ audio_df.map AudioRec.track_id)
  let audio_filtered := audio_df.filter fun r =>
    decide (r.track_id ∈ jpop_df.map TrackRec.track_id ∧
      r.track_id ∈ audio_df.map AudioRec.track_id)
  { jpop := jpop_filtered
    audio := audio_filtered
    combined := mergeInner jpop_filtered audio_filtered }

/-- The missing-track enrichment branch of `hybrid_recommendation`
(src/backend.py lines 122-140): fetch the track's audio features and append
them, fetch and append the track metadata, then re-run `data_clean`. -/
def hybrid_add_unknown_track (track_id : String)
    (lookup : String → Option AudioRec) (track_data : TrackRec) (s : Store) : Store :=
  let s1 : Store :=
    { s with audio :=
        save_audio_features_to_csv (get_audio_features [track_id] lookup) s.audio }
  let s2 : Store := { s1 with jpop := save_to_csv [track_data] s1.jpop }
  data_clean s2

/-- Mean of the non-missing entries of one feature column
(`SimpleImputer(strategy='mean')`); on an all-missing column sklearn drops
the column instead (a shape error downstream) — none of the theorems below
touch that case, where this formula yields `0/0 = 0`. -/
def colMean (col : List (Option ℚ)) : ℚ :=
  (col.filterMap id).sum / (col.filterMap id).length

/-- Mean-imputation of one feature column: every missing entry becomes the
column mean of the non-missing ones (src/utility.py line 169). -/
def imputeCol (col : List (Option ℚ)) : List (Option ℚ) :=
  col.map fun v => some (v.getD (colMean col))

/-- The DataFrame passed to `apply_clustering`, split by how the function
touches its columns: the selected feature columns (column-major, `Option`
entries model NaN), the `cluster` column when present, and all remaining
columns, which the function never reads or writes. -/
structure FeatDF where
  featCols : List (List (Option ℚ))
  cluster : Option (List Int)
  otherCols : List (List String)
deriving DecidableEq, Repr

/-- `apply_clustering(df, features)` (src/utility.py lines 157-180).  The
externally-fitted sklearn components are explicit parameters: `scalerFit`
models `StandardScaler().fit_transform` and `kmeansFit` models
`KMeans(...).fit_predict`.  Mean-imputation of the feature columns happens
FIRST, unconditionally (line 169); only the scaling and the label
computation are guarded by the `'cluster' not in df.columns` check. -/
def apply_clustering (scalerFit : List (List (Option ℚ)) → List (List (Option ℚ)))
    (kmeansFit : List (List (Option ℚ)) → List Int) (df : FeatDF) : FeatDF :=
  let imputed := df.featCols.map imputeCol
  match df.cluster with
  | some labels => { df with featCols := imputed, cluster := some labels }
  | none =>
    let scaled := scalerFit imputed
    { df with featCols := scaled, cluster := some (kmeansFit scaled) }

/-- A row of the in-memory `combined_df` as used by src/backend.py: of all
its columns, the recommendation functions only ever read `track_id`,
`track_name`, `artist_name` and `cluster`; the remaining (feature) columns
are carried by the tables above and never touched here. -/
structure CRow where
  track_id : String
  track_name : String
  artist_name : String
  cluster : Int
deriving DecidableEq, Repr

/-- The `(track_name, artist_name)` projection every recommender returns. -/
abbrev Pair := String × String

/-- Validity of a random draw `sel` for `DataFrame.sample(n)` from a table
of length `len`: `n` distinct row positions. -/
def sampleOk (n len : Nat) (sel : List Nat) : Prop :=
  sel.length = n ∧ sel.Nodup ∧ ∀ i ∈ sel, i < len

/-- pandas `DataFrame.sample(n)` with the random draw `sel` passed in
explicitly: with the default `replace=False` it raises `ValueError` whenever
`n` exceeds the population size, and otherwise returns the rows at the drawn
positions. -/
def sampleDF {α : Type} (l : List α) (n : Nat) (sel : List Nat) : Except String (List α) :=
  if n ≤ l.length then
    Except.ok (sel.filterMap fun i => l[i]?)
  else
    Except.error "Cannot take a larger sample than population when 'replace=False'"

/-- `recommend_from_cluster(track_id, df)` (src/backend.py lines 39-54):
read the cluster id of the first row matching `track_id` (`.values[0]`
raises `IndexError` on an absent track), then `.sample(5)` — the count 5 is
hard-coded — from all rows of that cluster, and project to
`(track_name, artist_name)`.  The track's own row is in the sampled
population.  `sel` is the random draw used by `.sample`. -/
def recommend_from_cluster (track_id : String) (df : List CRow)
    (sel : List Nat) : Except String (List Pair) :=
  match (df.filter fun r => decide (r.track_id = track_id)).map CRow.cluster with
  | [] => Except.error "index 0 is out of bounds for axis 0 with size 0"
  | cluster_id :: _ =>
    (sampleDF (df.filter fun r => decide (r.cluster = cluster_id)) 5 sel).map
      (List.map fun r => (r.track_name, r.artist_name))

/-- The rows kept by the `isin(recommended_track_ids)` filter of
`recommend_collaborative` (src/backend.py line 75), before the column
projection.  `cols` is `interaction_df.columns` and `ranking` is the fitted
NearestNeighbors model's ordering of all column indices for the queried
track's interaction column, nearest first, so
`kneighbors(n_neighbors=n+1)` returns its first `n + 1` entries; line 73
drops the first of those (`indices.flatten()[1:]`).  The model does not
reproduce sklearn's error when `n_neighbors` exceeds the number of columns;
no theorem below relies on that case. -/
def collabRows (track_id : String) (df : List CRow) (cols : List String)
    (ranking : List Nat) (n_recommendations : Nat) : List CRow :=
  if track_id ∈ cols then
    let recommended_track_ids :=
      ((ranking.take (n_recommendations + 1)).drop 1).filterMap fun i => cols[i]?
    df.filter fun r => decide (r.track_id ∈ recommended_track_ids)
  else []

/-- `recommend_collaborative(track_id, df, n_recommendations)`
(src/backend.py lines 56-75): empty result when the track is not a column
of the interaction matrix, otherwise the `(track_name, artist_name)`
projection of `collabRows`. -/
def recommend_collaborative (track_id : String) (df : List CRow)
    (cols : List String) (ranking : List Nat) (n_recommendations : Nat) : List Pair :=
  (collabRows track_id df cols ranking n_recommendations).map
    fun r => (r.track_name, r.artist_name)

/-- `spotify_external_recommendations(..., limit)` (src/backend.py lines
77-103).  `fetch limit` models the `sp.recommendations(..., limit=limit)`
call, already projected to the metadata fields of lines 93-100; `none`
means the call raised, and the `try/except` then returns the empty list
instead of propagating. -/
def spotify_external_recommendations (fetch : Nat → Option (List TrackRec))
    (limit : Nat) : List TrackRec :=
  match fetch limit with
  | some tracks => tracks
  | none => []

/-- The merged, deduplicated recommendation set built at src/backend.py line
168: cluster sample, collaborative result and external result (projected to
`(track_name, artist_name)`), concatenated and passed through
`drop_duplicates()` (full-row, keep first).  The call sites of lines 143 and
149 fix its inputs: `recommend_from_cluster` is called WITHOUT a count (its
sample size is the hard-coded 5) and the external call WITHOUT a limit (the
default `limit=20` applies), so of the three requested counts only
`n_collab_recs` reaches a signal source. -/
def hybridMerged (track_id : String) (df : List CRow) (n_collab_recs : Nat)
    (clusterSel : List Nat) (cols : List String) (ranking : List Nat)
    (fetch : Nat → Option (List TrackRec)) : Except String (List Pair) :=
  match recommend_from_cluster track_id df clusterSel with
  | Except.error e => Except.error e
  | Except.ok cluster_recs =>
    let collab_recs := recommend_collaborative track_id df cols ranking n_collab_recs
    let external_recs := spotify_external_recommendations fetch 20
    let external_recs_df := external_recs.map fun t => (t.track_name, t.artist_name)
    Except.ok (dedupByKey id (cluster_recs ++ collab_recs ++ external_recs_df))

/-- `hybrid_recommendation(track_id, df, n_cluster_recs, n_collab_recs,
n_external_recs)` (src/backend.py lines 105-171), restricted to its return
value.  The dataset-enrichment side effects (lines 122-140 when the track
is unknown, lines 150-162 for external results) touch only the CSV state —
modelled by `hybrid_add_unknown_track`, `save_to_csv`,
`save_audio_features_to_csv` and `data_clean` — and never the in-memory
`df`, so they do not influence the value returned here.  Lines 169-171:
`sample_size = min(len(combined_recs), n_cluster_recs + n_collab_recs +
n_external_recs)`, then a final `.sample(n=sample_size)` (draw `finalSel`)
when positive, else the string `"No recommendations available."`. -/
def hybrid_recommendation (track_id : String) (df : List CRow)
    (n_cluster_recs n_collab_recs n_external_recs : Nat)
    (clusterSel : List Nat) (cols : List String) (ranking : List Nat)
    (fetch : Nat → Option (List TrackRec)) (finalSel : List Nat) :
    Except String (List Pair ⊕ String) :=
  match hybridMerged track_id df n_collab_recs clusterSel cols ranking fetch with
  | Except.error e => Except.error e
  | Except.ok combined_recs =>
    let sample_size :=
      min combined_recs.length (n_cluster_recs + n_collab_recs + n_external_recs)
    if 0 < sample_size then
      (sampleDF combined_recs sample_size finalSel).map Sum.inl
    else
      Except.ok (Sum.inr "No recommendations available.")

/-- A two-track table whose first track sits alone in cluster 0. -/
def dfTwo : List CRow := [⟨"t1", "N1", "A1", 0⟩, ⟨"t2", "N2", "A2", 1⟩]

/-- A five-track table, all in cluster 0, with pairwise distinct names. -/
def dfFive : List CRow :=
  [⟨"t1", "N1", "A1", 0⟩, ⟨"t2", "N2", "A2", 0⟩, ⟨"t3", "N3", "A3", 0⟩,
   ⟨"t4", "N4", "A4", 0⟩, ⟨"t5", "N5", "A5", 0⟩]

/-- A concrete metadata row used by the concrete instances below. -/
def trackA : TrackRec := ⟨"a", "n", "ar", "al", "rd", 3⟩

/-- A second metadata row with the same `track_id` as `trackA` but a
different name. -/
def trackA2 : TrackRec := ⟨"a", "other", "ar2", "al2", "rd2", 7⟩

/-- A concrete audio-features row with `trackA`'s `track_id`. -/
def audioA : AudioRec := ⟨"a", 0, 0, 0, 0, 0, 0, 0, 0, 0, 0, 0⟩

/-- A concrete metadata row with `track_id` "b", for which no audio row
exists in the concrete stores below. -/
def trackB : TrackRec := ⟨"b", "n2", "ar2", "al2", "rd2", 4⟩

/-- The `(track_name, artist_name)` pairs of `dfFive`, in table order. -/
def fivePairs : List Pair :=
  [("N1", "A1"), ("N2", "A2"), ("N3", "A3"), ("N4", "A4"), ("N5", "A5")]

theorem mem_of_mem_dedupByKey {α κ : Type} [DecidableEq κ] (key : α → κ) :
    ∀ l : List α, ∀ y ∈ dedupByKey key l, y ∈ l := by
  intro l
  induction l using dedupByKey.induct key with
  | case1 => intro y hy; simp [dedupByKey] at hy
  | case2 x xs ih =>
    intro y hy
    rw [dedupByKey] at hy
    rcases List.mem_cons.mp hy with h | h
    · exact h ▸ List.mem_cons_self _ _
    · exact List.mem_cons_of_mem _ (List.mem_of_mem_filter (ih y h))

theorem dedupByKey_pairwise {α κ : Type} [DecidableEq κ] (key : α → κ) :
    ∀ l : List α, (dedupByKey key l).Pairwise (fun a b => key a ≠ key b) := by
  intro l
  induction l using dedupByKey.induct key with
  | case1 => simp [dedupByKey]
  | case2 x xs ih =>
    rw [dedupByKey]
    refine List.pairwise_cons.mpr ⟨?_, ih⟩
    intro y hy
    have := List.of_mem_filter (mem_of_mem_dedupByKey key _ y hy)
    intro hk
    simp only [decide_eq_true_eq] at this
    exact this hk.symm

theorem dedupByKey_eq_self {α κ : Type} [DecidableEq κ] (key : α → κ) :
    ∀ l : List α, l.Pairwise (fun a b => key a ≠ key b) → dedupByKey key l = l := by
  intro l
  induction l using dedupByKey.induct key with
  | case1 => simp [dedupByKey]
  | case2 x xs ih =>
    intro hp
    rw [List.pairwise_cons] at hp
    have hfilter : (xs.filter fun y => decide (key y ≠ key x)) = xs := by
      apply List.filter_eq_self.mpr
      intro a ha
      simpa using fun h => (hp.1 a ha) h.symm
    have ih2 : dedupByKey key xs = xs := by
      have h := ih (by rw [hfilter]; exact hp.2)
      rwa [hfilter] at h
    rw [dedupByKey, hfilter, ih2]

theorem dedupByKey_idem {α κ : Type} [DecidableEq κ] (key : α → κ) (l : List α) :
    dedupByKey key (dedupByKey key l) = dedupByKey key l :=
  dedupByKey_eq_self key _ (dedupByKey_pairwise key l)

theorem key_mem_dedupByKey {α κ : Type} [DecidableEq κ] (key : α → κ) :
    ∀ l : List α, ∀ k, k ∈ (dedupByKey key l).map key ↔ k ∈ l.map key := by
  intro l
  induction l using dedupByKey.induct key with
  | case1 => simp [dedupByKey]
  | case2 x xs ih =>
    intro k
    rw [dedupByKey]
    simp only [List.map_cons, List.mem_cons]
    constructor
    · rintro (h | h)
      · exact Or.inl h
      · right
        rcases List.mem_map.mp h with ⟨y, hy, hk⟩
        exact List.mem_map.mpr
          ⟨y, List.mem_of_mem_filter (mem_of_mem_dedupByKey key _ y hy), hk⟩
    · rintro (h | h)
      · exact Or.inl h
      · by_cases hkx : k = key x
        · exact Or.inl hkx
        · right
          rcases List.mem_map.mp h with ⟨y, hy, hk⟩
          refine (ih k).mpr ?_
          refine List.mem_map.mpr ⟨y, List.mem_filter.mpr ⟨hy, ?_⟩, hk⟩
          simp only [decide_eq_true_eq]
          intro hyx
          exact hkx (hk ▸ hyx ▸ rfl)

theorem dedupByKey_append {α κ : Type} [DecidableEq κ] (key : α → κ) :
    ∀ l₁ l₂ : List α, l₁.Pairwise (fun a b => key a ≠ key b) →
      dedupByKey key (l₁ ++ l₂) =
        l₁ ++ dedupByKey key (l₂.filter fun y => decide (key y ∉ l₁.map key)) := by
  intro l₁
  induction l₁ with
  | nil => simp
  | cons x xs ih =>
    intro l₂ hp
    rw [List.pairwise_cons] at hp
    rw [List.cons_append, dedupByKey, List.filter_append]
    have hxs : (xs.filter fun y => decide (key y ≠ key x)) = xs := by
      apply List.filter_eq_self.mpr
      intro a ha
      simpa using fun h => (hp.1 a ha) h.symm
    rw [hxs, ih _ hp.2, List.cons_append, List.filter_filter]
    have hfe : (l₂.filter fun a =>
          decide (key a ∉ List.map key xs) && decide (key a ≠ key x))
        = l₂.filter fun y => decide (key y ∉ List.map key (x :: xs)) := by
      apply List.filter_congr
      intro a _
      rw [Bool.eq_iff_iff]
      simp only [Bool.and_eq_true, decide_eq_true_eq, List.map_cons, List.mem_cons, not_or]
      tauto
    rw [hfe]

theorem keysDistinct_dedupByKey {α κ : Type} [DecidableEq κ] (key : α → κ) (l : List α) :
    keysDistinct key (dedupByKey key l) :=
  dedupByKey_pairwise key l

theorem keysDistinct_filter {α κ : Type} [DecidableEq κ] (key : α → κ) (p : α → Bool)
    (l : List α) (h : keysDistinct key l) : keysDistinct key (l.filter p) :=
  List.Pairwise.sublist (List.filter_sublist l) h

theorem get_audio_features_eq_filterMap (track_ids : List String)
    (lookup : String → Option AudioRec) :
    get_audio_features track_ids lookup = track_ids.filterMap lookup := by
  induction track_ids, lookup using get_audio_features.induct with
  | case1 lookup => rw [get_audio_features, List.filterMap_nil]
  | case2 t ts lookup ih =>
    rw [get_audio_features, ih, ← List.filterMap_append, List.take_append_drop]

theorem nodup_of_subperm {α : Type} {l₁ l₂ : List α}
    (h : List.Subperm l₁ l₂) (h₂ : l₂.Nodup) : l₁.Nodup := by
  rcases h with ⟨m, hm, hs⟩
  exact hm.nodup_iff.mp (h₂.sublist hs)

theorem sel_perm_range {n : Nat} {sel : List Nat} (h : sampleOk n n sel) :
    sel.Perm (List.range n) := by
  rcases h with ⟨hlen, hnd, hlt⟩
  have hsub : List.Subperm sel (List.range n) :=
    List.subperm_of_subset hnd fun i hi => List.mem_range.mpr (hlt i hi)
  exact hsub.perm_of_length_le (by simp [hlen])

theorem filterMap_getElem_range {α : Type} (l : List α) :
    (List.range l.length).filterMap (fun i => l[i]?) = l := by
  induction l with
  | nil => simp
  | cons x xs ih =>
    rw [List.length_cons, List.range_succ_eq_map]
    simp only [List.filterMap_cons, List.getElem?_cons_zero, List.filterMap_map]
    have hcomp : ((fun i => (x :: xs)[i]?) ∘ Nat.succ) = fun i => xs[i]? := by
      funext i
      simp
    rw [hcomp, ih]

/-- On a full-size valid draw, `sampleDF`'s selection is a permutation of the
population: `DataFrame.sample(n=len(df))` returns all rows in random order. -/
theorem sample_perm {α : Type} (l : List α) {sel : List Nat}
    (h : sampleOk l.length l.length sel) :
    (sel.filterMap fun i => l[i]?).Perm l := by
  have hp := (sel_perm_range h).filterMap (fun i => l[i]?)
  rwa [filterMap_getElem_range] at hp

theorem sample_length {α : Type} (l : List α) :
    ∀ sel : List Nat, (∀ i ∈ sel, i < l.length) →
      (sel.filterMap fun i => l[i]?).length = sel.length := by
  intro sel
  induction sel with
  | nil => simp
  | cons i is ih =>
    intro h
    obtain ⟨a, ha⟩ : ∃ a, l[i]? = some a := by
      rw [List.getElem?_eq_getElem (h i (List.mem_cons_self i is))]
      exact ⟨_, rfl⟩
    rw [List.filterMap_cons, ha, List.length_cons,
      ih fun j hj => h j (List.mem_cons_of_mem i hj)]
    exact (List.length_cons _ _).symm

theorem sample_subperm {α : Type} (l : List α) {sel : List Nat}
    (hnd : sel.Nodup) (hlt : ∀ i ∈ sel, i < l.length) :
    List.Subperm (sel.filterMap fun i => l[i]?) l := by
  have hsub : List.Subperm sel (List.range l.length) :=
    List.subperm_of_subset hnd fun i hi => List.mem_range.mpr (hlt i hi)
  rcases hsub with ⟨m, hm, hs⟩
  refine ⟨m.filterMap fun i => l[i]?, hm.filterMap _, ?_⟩
  have hsl := hs.filterMap fun i => l[i]?
  rwa [filterMap_getElem_range] at hsl

theorem nodup_dedupByKey_id {α : Type} [DecidableEq α] (l : List α) :
    (dedupByKey id l).Nodup := by
  have h := dedupByKey_pairwise (id : α → α) l
  simpa [List.Nodup] using h

theorem dedupByKey_ne_nil {α κ : Type} [DecidableEq κ] (key : α → κ)
    (x : α) (xs : List α) : dedupByKey key (x :: xs) ≠ [] := by
  rw [dedupByKey]
  exact List.cons_ne_nil _ _

/-- C1, counterexample to the claim as stated: in a table where track `t1`
is alone in its cluster, `recommend_from_cluster` raises the pandas sampling
error instead of returning the 0 available peers. -/
theorem C1_counterexample :
    recommend_from_cluster "t1" dfTwo [0, 1, 2, 3, 4] =
      Except.error
        "Cannot take a larger sample than population when 'replace=False'" := by
  decide

/-- C1 (amended): for every unified table with a cluster column and every
track present in it, when the track's cluster has fewer rows than the
hard-coded sample size of 5, `recommend_from_cluster` raises the pandas
sampling error instead of degrading to the available peers; the requested
`n_cluster_recs` plays no role because the call sites never pass a count. -/
theorem C1_theorem (track_id : String) (df : List CRow) (sel : List Nat)
    (cluster_id : Int) (rest : List Int)
    (hfound : (df.filter fun r => decide (r.track_id = track_id)).map CRow.cluster
      = cluster_id :: rest)
    (hsmall : (df.filter fun r => decide (r.cluster = cluster_id)).length < 5) :
    recommend_from_cluster track_id df sel =
      Except.error
        "Cannot take a larger sample than population when 'replace=False'" := by
  simp only [recommend_from_cluster, hfound]
  rw [sampleDF, if_neg (by omega)]
  rfl

/-- C1 witness: the amended statement applied to the concrete two-track
table, with `t1` in a singleton cluster. -/
theorem C1_witness :
    recommend_from_cluster "t1" dfTwo [] =
      Except.error
        "Cannot take a larger sample than population when 'replace=False'" :=
  C1_theorem "t1" dfTwo [] 0 [] (by decide) (by decide)

/-- C2, counterexample to the claim as stated: in a five-track table forming
one cluster, `recommend_from_cluster "t1"` returns all five rows —
including `t1`'s own `(track_name, artist_name)` pair `("N1", "A1")`. -/
theorem C2_counterexample :
    recommend_from_cluster "t1" dfFive [0, 1, 2, 3, 4] =
      Except.ok [("N1", "A1"), ("N2", "A2"), ("N3", "A3"), ("N4", "A4"),
        ("N5", "A5")] ∧
    ("N1", "A1") ∈ [("N1", "A1"), ("N2", "A2"), ("N3", "A3"), ("N4", "A4"),
        ("N5", "A5")] := by
  decide

/-- C2 (amended): `recommend_collaborative` never returns a row of the
queried track (given that the interaction-matrix columns are distinct and
the NearestNeighbors ranking starts with the track's own column — the entry
that line 73 drops), but `recommend_from_cluster` can return the queried
track: whenever its cluster has exactly 5 rows, every valid draw of the
hard-coded `.sample(5)` contains every row of the cluster, the queried
track's own row included. -/
theorem C2_theorem (track_id : String) (df : List CRow) (sel : List Nat)
    (cluster_id : Int) (rest : List Int) (cols : List String)
    (ranking : List Nat) (n i0 : Nat)
    (hfound : (df.filter fun r => decide (r.track_id = track_id)).map CRow.cluster
      = cluster_id :: rest)
    (hfive : (df.filter fun r => decide (r.cluster = cluster_id)).length = 5)
    (hsel : sampleOk 5 5 sel)
    (hnd : cols.Nodup) (hrnd : ranking.Nodup)
    (hhead : ranking.head? = some i0) (hcol : cols[i0]? = some track_id) :
    (∀ r ∈ df, r.cluster = cluster_id →
      ∃ l, recommend_from_cluster track_id df sel = Except.ok l ∧
        (r.track_name, r.artist_name) ∈ l) ∧
    (∀ r ∈ collabRows track_id df cols ranking n, r.track_id ≠ track_id) := by
  constructor
  · intro r hr hrc
    simp only [recommend_from_cluster, hfound]
    have hle : 5 ≤ (df.filter fun r => decide (r.cluster = cluster_id)).length := by
      omega
    rw [sampleDF, if_pos hle]
    refine ⟨_, rfl, ?_⟩
    have hmem : r ∈ df.filter fun r => decide (r.cluster = cluster_id) :=
      List.mem_filter.mpr ⟨hr, by simp [hrc]⟩
    have hsel2 : sampleOk ((df.filter fun r => decide (r.cluster = cluster_id)).length)
        ((df.filter fun r => decide (r.cluster = cluster_id)).length) sel := by
      rw [hfive]
      exact hsel
    have hperm := sample_perm (df.filter fun r => decide (r.cluster = cluster_id)) hsel2
    exact List.mem_map_of_mem _ (hperm.mem_iff.mpr hmem)
  · intro r hr heq
    rw [collabRows] at hr
    by_cases hin : track_id ∈ cols
    · simp only [hin, ite_true] at hr
      have hrec : r.track_id ∈
          ((ranking.take (n + 1)).drop 1).filterMap fun i => cols[i]? := by
        simpa using List.of_mem_filter hr
      rw [heq] at hrec
      rcases List.mem_filterMap.mp hrec with ⟨j, hj, hcolj⟩
      have hjlen : j < cols.length := by
        rcases List.getElem?_eq_some.mp hcolj with ⟨h, _⟩
        exact h
      have hji : j = i0 := List.getElem?_inj hjlen hnd (hcolj.trans hcol.symm)
      rcases ranking with _ | ⟨a, tl⟩
      · simp at hhead
      · have ha : a = i0 := by simpa using hhead
        have hj' : j ∈ tl.take n := by
          simpa [List.take_succ_cons] using hj
        have hi0tl : i0 ∈ tl := hji ▸ List.mem_of_mem_take hj'
        exact (List.pairwise_cons.mp hrnd).1 i0 hi0tl ha
    · simp only [hin, ite_false] at hr
      exact absurd hr (List.not_mem_nil r)

theorem map_getD_of_no_missing (m : ℚ) :
    ∀ col : List (Option ℚ), (∀ v ∈ col, v.isSome) →
      (col.map fun v => some (v.getD m)) = col := by
  intro col h
  induction col with
  | nil => rfl
  | cons v vs ih =>
    rcases v with _ | x
    · exact absurd (h none (List.mem_cons_self _ _)) (by simp)
    · rw [List.map_cons, Option.getD_some,
        ih fun w hw => h w (List.mem_cons_of_mem _ hw)]

theorem imputeCol_of_no_missing (col : List (Option ℚ))
    (h : ∀ v ∈ col, v.isSome) : imputeCol col = col :=
  map_getD_of_no_missing (colMean col) col h

/-- C6, counterexample to the claim as stated: a table that already carries
a `cluster` column but has one missing feature value is NOT returned
unchanged — the unconditional mean-imputation of line 169 fills the missing
entry (here with the column mean 1) before the `'cluster' not in df.columns`
check is reached. -/
theorem C6_counterexample :
    apply_clustering (fun cols => cols) (fun _ => [])
        ⟨[[some 1, none]], some [0, 1], []⟩ ≠
      ⟨[[some 1, none]], some [0, 1], []⟩ := by
  decide

/-- C6 (amended): when the DataFrame already has a `cluster` column,
`apply_clustering` never recomputes labels — the cluster column and every
non-feature column are returned unchanged — but it is not a no-op on the
feature columns: mean-imputation still runs unconditionally, so the whole
table is returned unchanged exactly when the feature columns have no
missing values. -/
theorem C6_theorem (scalerFit : List (List (Option ℚ)) → List (List (Option ℚ)))
    (kmeansFit : List (List (Option ℚ)) → List Int) (df : FeatDF)
    (labels : List Int) (hc : df.cluster = some labels) :
    (apply_clustering scalerFit kmeansFit df).cluster = some labels ∧
    (apply_clustering scalerFit kmeansFit df).otherCols = df.otherCols ∧
    (apply_clustering scalerFit kmeansFit df).featCols = df.featCols.map imputeCol ∧
    ((∀ col ∈ df.featCols, ∀ v ∈ col, v.isSome) →
      apply_clustering scalerFit kmeansFit df = df) := by
  obtain ⟨f, c, o⟩ := df
  have hc2 : c = some labels := hc
  subst hc2
  refine ⟨rfl, rfl, rfl, ?_⟩
  intro hnm
  have hnm2 : ∀ col ∈ f, ∀ v ∈ col, v.isSome := hnm
  have hmap : f.map imputeCol = f := by
    have hcols : ∀ col ∈ f, imputeCol col = col := fun col hcol =>
      imputeCol_of_no_missing col (hnm2 col hcol)
    rw [List.map_congr_left hcols]
    exact List.map_id f
  show (⟨f.map imputeCol, some labels, o⟩ : FeatDF) = ⟨f, some labels, o⟩
  rw [hmap]

/-- C6 witness: the amended statement applied to a table that already has a
cluster column and no missing feature values — there the imputation really
is the identity and the table comes back unchanged. -/
theorem C6_witness :
    (apply_clustering (fun cols => cols) (fun _ => [])
        ⟨[[some 1, some 2]], some [0, 1], []⟩).cluster = some [0, 1] ∧
    (apply_clustering (fun cols => cols) (fun _ => [])
        ⟨[[some 1, some 2]], some [0, 1], []⟩).otherCols =
      (⟨[[some 1, some 2]], some [0, 1], []⟩ : FeatDF).otherCols ∧
    (apply_clustering (fun cols => cols) (fun _ => [])
        ⟨[[some 1, some 2]], some [0, 1], []⟩).featCols =
      (⟨[[some 1, some 2]], some [0, 1], []⟩ : FeatDF).featCols.map imputeCol ∧
    ((∀ col ∈ (⟨[[some 1, some 2]], some [0, 1], []⟩ : FeatDF).featCols,
        ∀ v ∈ col, v.isSome) →
      apply_clustering (fun cols => cols) (fun _ => [])
          ⟨[[some 1, some 2]], some [0, 1], []⟩ =
        ⟨[[some 1, some 2]], some [0, 1], []⟩) :=
  C6_theorem (fun cols => cols) (fun _ => []) ⟨[[some 1, some 2]], some [0, 1], []⟩
    [0, 1] rfl

theorem mem_data_clean_jpop {s : Store} {r : TrackRec} :
    r ∈ (data_clean s).jpop ↔
      r ∈ dedupByKey TrackRec.track_id s.jpop ∧
        (r.track_id ∈ (dedupByKey TrackRec.track_id s.jpop).map TrackRec.track_id ∧
         r.track_id ∈ (dedupByKey AudioRec.track_id s.audio).map AudioRec.track_id) := by
  show r ∈ List.filter _ _ ↔ _
  rw [List.mem_filter]
  constructor
  · rintro ⟨h1, h2⟩
    exact ⟨h1, of_decide_eq_true h2⟩
  · rintro ⟨h1, h2⟩
    exact ⟨h1, decide_eq_true h2⟩

theorem mem_data_clean_audio {s : Store} {a : AudioRec} :
    a ∈ (data_clean s).audio ↔
      a ∈ dedupByKey AudioRec.track_id s.audio ∧
        (a.track_id ∈ (dedupByKey TrackRec.track_id s.jpop).map TrackRec.track_id ∧
         a.track_id ∈ (dedupByKey AudioRec.track_id s.audio).map AudioRec.track_id) := by
  show a ∈ List.filter _ _ ↔ _
  rw [List.mem_filter]
  constructor
  · rintro ⟨h1, h2⟩
    exact ⟨h1, of_decide_eq_true h2⟩
  · rintro ⟨h1, h2⟩
    exact ⟨h1, decide_eq_true h2⟩

theorem data_clean_jpop_key_mem {s : Store} {k : String} :
    k ∈ (data_clean s).jpop.map TrackRec.track_id ↔
      k ∈ s.jpop.map TrackRec.track_id ∧ k ∈ s.audio.map AudioRec.track_id := by
  constructor
  · intro h
    rcases List.mem_map.mp h with ⟨r, hr, hk⟩
    rcases mem_data_clean_jpop.mp hr with ⟨-, h2, h3⟩
    exact ⟨(key_mem_dedupByKey _ _ _).mp (hk ▸ h2),
      (key_mem_dedupByKey _ _ _).mp (hk ▸ h3)⟩
  · rintro ⟨h1, h2⟩
    rcases List.mem_map.mp ((key_mem_dedupByKey _ _ _).mpr h1) with ⟨r, hr, hk⟩
    refine List.mem_map.mpr ⟨r, mem_data_clean_jpop.mpr ⟨hr, ?_, ?_⟩, hk⟩
    · exact List.mem_map_of_mem _ hr
    · rw [hk]
      exact (key_mem_dedupByKey _ _ _).mpr h2

theorem data_clean_audio_key_mem {s : Store} {k : String} :
    k ∈ (data_clean s).audio.map AudioRec.track_id ↔
      k ∈ s.jpop.map TrackRec.track_id ∧ k ∈ s.audio.map AudioRec.track_id := by
  constructor
  · intro h
    rcases List.mem_map.mp h with ⟨a, ha, hk⟩
    rcases mem_data_clean_audio.mp ha with ⟨-, h2, h3⟩
    exact ⟨(key_mem_dedupByKey _ _ _).mp (hk ▸ h2),
      (key_mem_dedupByKey _ _ _).mp (hk ▸ h3)⟩
  · rintro ⟨h1, h2⟩
    rcases List.mem_map.mp ((key_mem_dedupByKey _ _ _).mpr h2) with ⟨a, ha, hk⟩
    refine List.mem_map.mpr ⟨a, mem_data_clean_audio.mpr ⟨ha, ?_, ?_⟩, hk⟩
    · rw [hk]
      exact (key_mem_dedupByKey _ _ _).mpr h1
    · exact List.mem_map_of_mem _ ha

theorem data_clean_jpop_keysDistinct (s : Store) :
    keysDistinct TrackRec.track_id (data_clean s).jpop :=
  keysDistinct_filter _ _ _ (keysDistinct_dedupByKey _ _)

theorem data_clean_audio_keysDistinct (s : Store) :
    keysDistinct AudioRec.track_id (data_clean s).audio :=
  keysDistinct_filter _ _ _ (keysDistinct_dedupByKey _ _)

/-- C7: the clean-and-join operation `data_clean` is idempotent — running it
a second time on the tables the first run wrote reproduces exactly the same
three tables, so the unified output is byte-identical. -/
theorem C7_theorem (s : Store) : data_clean (data_clean s) = data_clean s := by
  have hdj : dedupByKey TrackRec.track_id (data_clean s).jpop = (data_clean s).jpop :=
    dedupByKey_eq_self _ _ (data_clean_jpop_keysDistinct s)
  have hda : dedupByKey AudioRec.track_id (data_clean s).audio = (data_clean s).audio :=
    dedupByKey_eq_self _ _ (data_clean_audio_keysDistinct s)
  have hfj : ((data_clean s).jpop.filter fun r =>
      decide (r.track_id ∈ (data_clean s).jpop.map TrackRec.track_id ∧
        r.track_id ∈ (data_clean s).audio.map AudioRec.track_id)) =
      (data_clean s).jpop := by
    apply List.filter_eq_self.mpr
    intro r hr
    apply decide_eq_true
    refine ⟨List.mem_map_of_mem _ hr, ?_⟩
    have hks := data_clean_jpop_key_mem.mp (List.mem_map_of_mem TrackRec.track_id hr)
    exact data_clean_audio_key_mem.mpr hks
  have hfa : ((data_clean s).audio.filter fun a =>
      decide (a.track_id ∈ (data_clean s).jpop.map TrackRec.track_id ∧
        a.track_id ∈ (data_clean s).audio.map AudioRec.track_id)) =
      (data_clean s).audio := by
    apply List.filter_eq_self.mpr
    intro a ha
    apply decide_eq_true
    refine ⟨?_, List.mem_map_of_mem _ ha⟩
    have hks := data_clean_audio_key_mem.mp (List.mem_map_of_mem AudioRec.track_id ha)
    exact data_clean_jpop_key_mem.mpr hks
  have hjpop : (data_clean (data_clean s)).jpop = (data_clean s).jpop := by
    show ((dedupByKey TrackRec.track_id (data_clean s).jpop).filter fun r =>
        decide (r.track_id ∈
            (dedupByKey TrackRec.track_id (data_clean s).jpop).map TrackRec.track_id ∧
          r.track_id ∈
            (dedupByKey AudioRec.track_id (data_clean s).audio).map AudioRec.track_id)) =
      (data_clean s).jpop
    simp only [hdj, hda]
    exact hfj
  have haudio : (data_clean (data_clean s)).audio = (data_clean s).audio := by
    show ((dedupByKey AudioRec.track_id (data_clean s).audio).filter fun a =>
        decide (a.track_id ∈
            (dedupByKey TrackRec.track_id (data_clean s).jpop).map TrackRec.track_id ∧
          a.track_id ∈
            (dedupByKey AudioRec.track_id (data_clean s).audio).map AudioRec.track_id)) =
      (data_clean s).audio
    simp only [hdj, hda]
    exact hfa
  have hcomb : (data_clean (data_clean s)).combined = (data_clean s).combined := by
    show mergeInner (data_clean (data_clean s)).jpop (data_clean (data_clean s)).audio =
      mergeInner (data_clean s).jpop (data_clean s).audio
    rw [hjpop, haudio]
  exact Store.ext hjpop haudio hcomb

/-- C8, counterexample to the claim as stated: a metadata table holding one
track with no audio-features row loses that track when `data_clean` runs —
the clean-and-join step deletes metadata rows whose `track_id` has no
audio-features row. -/
theorem C8_counterexample :
    "a" ∈ (Store.mk [trackA] [] []).jpop.map TrackRec.track_id ∧
    "a" ∉ (data_clean (Store.mk [trackA] [] [])).jpop.map TrackRec.track_id := by
  constructor
  · decide
  · simp [data_clean, dedupByKey, trackA]

/-- C8 (amended): `save_to_csv` never deletes — every `track_id` present
before an append is present afterwards — but `data_clean` keeps a metadata
`track_id` exactly when it also has an audio-features row, so metadata rows
without audio features ARE deleted by the clean-and-join step (and hence by
the enrichment steps of `hybrid_recommendation`, which end in
`data_clean`). -/
theorem C8_theorem :
    (∀ (tracks existing : List TrackRec) (k : String),
      k ∈ existing.map TrackRec.track_id →
      k ∈ (save_to_csv tracks existing).map TrackRec.track_id) ∧
    (∀ (s : Store) (k : String), k ∈ s.jpop.map TrackRec.track_id →
      (k ∈ (data_clean s).jpop.map TrackRec.track_id ↔
        k ∈ s.audio.map AudioRec.track_id)) := by
  constructor
  · intro tracks existing k hk
    apply (key_mem_dedupByKey _ _ _).mpr
    rw [List.map_append]
    exact List.mem_append_left _ hk
  · intro s k hk
    constructor
    · intro h
      exact (data_clean_jpop_key_mem.mp h).2
    · intro h
      exact data_clean_jpop_key_mem.mpr ⟨hk, h⟩

/-- C8 witness: the amended statement at concrete inputs — an append
preserves the existing id, and after `data_clean` the id survives exactly
when an audio row for it exists. -/
theorem C8_witness :
    "a" ∈ (save_to_csv [trackA2] [trackA]).map TrackRec.track_id ∧
    ("a" ∈ (data_clean (Store.mk [trackA] [audioA] [])).jpop.map TrackRec.track_id ↔
      "a" ∈ [audioA].map AudioRec.track_id) :=
  ⟨C8_theorem.1 [trackA2] [trackA] "a" (by decide),
   C8_theorem.2 (Store.mk [trackA] [audioA] []) "a" (by decide)⟩

/-- C9: both append operations leave the existing rows unchanged (they
remain the unmodified prefix of the table), discard every incoming record
whose `track_id` already exists, and append only records with track_ids not
yet present. -/
theorem C9_theorem :
    (∀ (tracks existing : List TrackRec),
      keysDistinct TrackRec.track_id existing →
      (save_to_csv tracks existing).take existing.length = existing ∧
      ∀ a ∈ (save_to_csv tracks existing).drop existing.length,
        a ∈ tracks ∧ a.track_id ∉ existing.map TrackRec.track_id) ∧
    (∀ (audio_features existing : List AudioRec),
      (save_audio_features_to_csv audio_features existing).take existing.length
        = existing ∧
      ∀ a ∈ (save_audio_features_to_csv audio_features existing).drop existing.length,
        a ∈ audio_features ∧ a.track_id ∉ existing.map AudioRec.track_id) := by
  constructor
  · intro tracks existing hex
    have heq : save_to_csv tracks existing =
        existing ++ dedupByKey TrackRec.track_id
          ((dedupByKey TrackRec.track_id tracks).filter fun y =>
            decide (y.track_id ∉ existing.map TrackRec.track_id)) := by
      rw [save_to_csv, dedupByKey_append _ _ _ hex]
    constructor
    · rw [heq, List.take_left]
    · intro a ha
      rw [heq, List.drop_left] at ha
      have ha2 := mem_of_mem_dedupByKey _ _ _ ha
      have hpa := List.of_mem_filter ha2
      simp only [decide_eq_true_eq] at hpa
      exact ⟨mem_of_mem_dedupByKey _ _ _ (List.mem_of_mem_filter ha2), hpa⟩
  · intro audio_features existing
    constructor
    · rw [save_audio_features_to_csv, List.take_left]
    · intro a ha
      rw [save_audio_features_to_csv, List.drop_left] at ha
      have hpa := List.of_mem_filter ha
      simp only [decide_eq_true_eq] at hpa
      exact ⟨List.mem_of_mem_filter ha, hpa⟩

/-- C9 witness: the statement at concrete inputs — appending a second record
with an already-present `track_id` leaves the table's single row unchanged
and appends nothing with a known id. -/
theorem C9_witness :
    ((save_to_csv [trackA2] [trackA]).take 1 = [trackA] ∧
      ∀ a ∈ (save_to_csv [trackA2] [trackA]).drop 1,
        a ∈ [trackA2] ∧ a.track_id ∉ [trackA].map TrackRec.track_id) ∧
    ((save_audio_features_to_csv [audioA] [audioA]).take 1 = [audioA] ∧
      ∀ a ∈ (save_audio_features_to_csv [audioA] [audioA]).drop 1,
        a ∈ [audioA] ∧ a.track_id ∉ [audioA].map AudioRec.track_id) :=
  ⟨C9_theorem.1 [trackA2] [trackA] (by simp [keysDistinct]),
   C9_theorem.2 [audioA] [audioA]⟩

/-- C10: `get_audio_features` is the per-id filterMap of the external
lookup — one record per non-null response, null responses silently dropped,
so the output can be strictly shorter than the input; an id whose lookup
returned null gains no feature row, and a track absent from the
audio-features table never enters the unified table, even though the
enrichment step still appends its metadata row before `data_clean` runs. -/
theorem C10_theorem :
    (∀ (track_ids : List String) (lookup : String → Option AudioRec),
      get_audio_features track_ids lookup = track_ids.filterMap lookup) ∧
    (∀ (track_ids : List String) (lookup : String → Option AudioRec) (k : String),
      (∀ i r, lookup i = some r → r.track_id = i) →
      lookup k = none →
      k ∉ (get_audio_features track_ids lookup).map AudioRec.track_id) ∧
    (∀ (s : Store) (k : String), k ∉ s.audio.map AudioRec.track_id →
      k ∉ (data_clean s).combined.map fun c => c.meta.track_id) ∧
    (∀ (track_id : String) (lookup : String → Option AudioRec)
      (track_data : TrackRec) (s : Store),
      lookup track_id = none → track_data.track_id = track_id →
      track_id ∉ s.audio.map AudioRec.track_id →
      track_id ∈ (save_to_csv [track_data] s.jpop).map TrackRec.track_id ∧
      track_id ∉ (hybrid_add_unknown_track track_id lookup track_data s).combined.map
        fun c => c.meta.track_id) := by
  have hb : ∀ (track_ids : List String) (lookup : String → Option AudioRec)
      (k : String), (∀ i r, lookup i = some r → r.track_id = i) →
      lookup k = none →
      k ∉ (get_audio_features track_ids lookup).map AudioRec.track_id := by
    intro track_ids lookup k hid hnone hmem
    rw [get_audio_features_eq_filterMap] at hmem
    rcases List.mem_map.mp hmem with ⟨r, hr, hk⟩
    rcases List.mem_filterMap.mp hr with ⟨i, _, hi⟩
    have hik : i = k := (hid i r hi) ▸ hk
    rw [hik, hnone] at hi
    exact Option.noConfusion hi
  have hc : ∀ (s : Store) (k : String), k ∉ s.audio.map AudioRec.track_id →
      k ∉ (data_clean s).combined.map fun c => c.meta.track_id := by
    intro s k hk hmem
    apply hk
    rcases List.mem_map.mp hmem with ⟨c, hcm, hck⟩
    have hcm2 : c ∈ mergeInner (data_clean s).jpop (data_clean s).audio := hcm
    rcases List.mem_flatMap.mp hcm2 with ⟨j, _, hcj⟩
    rcases List.mem_map.mp hcj with ⟨a, haf, hca⟩
    have haid : a.track_id = j.track_id := by
      have hpa := List.of_mem_filter haf
      simpa using hpa
    have hameta : c.meta = j := by rw [← hca]
    have haud : a ∈ (data_clean s).audio := List.mem_of_mem_filter haf
    have : a.track_id = k := by
      rw [haid, ← hameta, hck]
    rw [← this]
    exact List.mem_map_of_mem _
      (mem_of_mem_dedupByKey _ _ _ (mem_data_clean_audio.mp haud).1)
  refine ⟨fun ids lookup => get_audio_features_eq_filterMap ids lookup, hb, hc, ?_⟩
  intro track_id lookup track_data s hnone hid hnoaudio
  have hgaf : get_audio_features [track_id] lookup = [] := by
    rw [get_audio_features_eq_filterMap]
    simp [hnone]
  have hsaudio : save_audio_features_to_csv (get_audio_features [track_id] lookup)
      s.audio = s.audio := by
    rw [hgaf, save_audio_features_to_csv]
    simp
  constructor
  · apply (key_mem_dedupByKey _ _ _).mpr
    rw [List.map_append]
    apply List.mem_append_right
    have htd : dedupByKey TrackRec.track_id [track_data] = [track_data] := by
      rw [dedupByKey]
      simp [dedupByKey]
    rw [htd, ← hid]
    exact List.mem_map_of_mem _ (List.mem_cons_self _ _)
  · have hEq : hybrid_add_unknown_track track_id lookup track_data s =
        data_clean (Store.mk (save_to_csv [track_data] s.jpop)
          (save_audio_features_to_csv (get_audio_features [track_id] lookup) s.audio)
          s.combined) := rfl
    rw [hEq, hsaudio]
    exact hc (Store.mk (save_to_csv [track_data] s.jpop) s.audio s.combined)
      track_id hnoaudio

/-- C10 witness: the statement at concrete inputs — an external lookup that
returns null for every id yields no feature rows, and a track without an
audio row gains a metadata row in the save step but never reaches the
unified table. -/
theorem C10_witness :
    get_audio_features ["a", "b"] (fun _ => none) =
      ["a", "b"].filterMap (fun _ => none) ∧
    "b" ∉ (get_audio_features ["a", "b"] (fun _ => none)).map AudioRec.track_id ∧
    "b" ∉ (data_clean (Store.mk [trackA] [audioA] [])).combined.map
      (fun c => c.meta.track_id) ∧
    ("b" ∈ (save_to_csv [trackB] (Store.mk [trackA] [audioA] []).jpop).map
        TrackRec.track_id ∧
      "b" ∉ (hybrid_add_unknown_track "b" (fun _ => none) trackB
        (Store.mk [trackA] [audioA] [])).combined.map fun c => c.meta.track_id) :=
  ⟨C10_theorem.1 ["a", "b"] (fun _ => none),
   C10_theorem.2.1 ["a", "b"] (fun _ => none) "b"
     (fun i r h => Option.noConfusion h) rfl,
   C10_theorem.2.2.1 (Store.mk [trackA] [audioA] []) "b" (by decide),
   C10_theorem.2.2.2 "b" (fun _ => none) trackB (Store.mk [trackA] [audioA] [])
     rfl rfl (by decide)⟩

/-- C2 witness: the amended statement at concrete inputs — a 5-row cluster
and a 2-column interaction matrix whose ranking puts `t1`'s column first. -/
theorem C2_witness :
    (∀ r ∈ dfFive, r.cluster = 0 →
      ∃ l, recommend_from_cluster "t1" dfFive [4, 3, 2, 1, 0] = Except.ok l ∧
        (r.track_name, r.artist_name) ∈ l) ∧
    (∀ r ∈ collabRows "t1" dfFive ["t1", "t2"] [0, 1] 1, r.track_id ≠ "t1") :=
  C2_theorem "t1" dfFive [4, 3, 2, 1, 0] 0 [] ["t1", "t2"] [0, 1] 1 0
    (by decide) (by decide) ⟨by decide, by decide, by decide⟩
    (by decide) (by decide) rfl rfl

theorem dedupByKey_eq_nil {α κ : Type} [DecidableEq κ] {key : α → κ} {l : List α}
    (h : dedupByKey key l = []) : l = [] := by
  cases l with
  | nil => rfl
  | cons x xs => exact absurd h (dedupByKey_ne_nil key x xs)

theorem hybridMerged_ok_elim {track_id : String} {df : List CRow}
    {n_collab_recs : Nat} {clusterSel : List Nat} {cols : List String}
    {ranking : List Nat} {fetch : Nat → Option (List TrackRec)} {combined : List Pair}
    (hm : hybridMerged track_id df n_collab_recs clusterSel cols ranking fetch =
      Except.ok combined) :
    ∃ cluster_recs,
      recommend_from_cluster track_id df clusterSel = Except.ok cluster_recs ∧
      combined = dedupByKey id (cluster_recs ++
        recommend_collaborative track_id df cols ranking n_collab_recs ++
        (spotify_external_recommendations fetch 20).map
          fun t => (t.track_name, t.artist_name)) := by
  unfold hybridMerged at hm
  cases h : recommend_from_cluster track_id df clusterSel with
  | error e =>
    rw [h] at hm
    exact Except.noConfusion hm
  | ok cl =>
    rw [h] at hm
    exact ⟨cl, rfl, (Except.ok.inj hm).symm⟩

theorem hybridMerged_ok_nodup {track_id : String} {df : List CRow}
    {n_collab_recs : Nat} {clusterSel : List Nat} {cols : List String}
    {ranking : List Nat} {fetch : Nat → Option (List TrackRec)} {combined : List Pair}
    (hm : hybridMerged track_id df n_collab_recs clusterSel cols ranking fetch =
      Except.ok combined) : combined.Nodup := by
  rcases hybridMerged_ok_elim hm with ⟨cl, -, hcomb⟩
  rw [hcomb]
  exact nodup_dedupByKey_id _

theorem hybrid_recommendation_reduce (n_cluster_recs n_external_recs : Nat)
    (finalSel : List Nat) {track_id : String} {df : List CRow}
    {n_collab_recs : Nat} {clusterSel : List Nat} {cols : List String}
    {ranking : List Nat} {fetch : Nat → Option (List TrackRec)} {combined : List Pair}
    (hm : hybridMerged track_id df n_collab_recs clusterSel cols ranking fetch =
      Except.ok combined) :
    hybrid_recommendation track_id df n_cluster_recs n_collab_recs n_external_recs
        clusterSel cols ranking fetch finalSel =
      if 0 < min combined.length
          (n_cluster_recs + n_collab_recs + n_external_recs) then
        (sampleDF combined
          (min combined.length (n_cluster_recs + n_collab_recs + n_external_recs))
          finalSel).map Sum.inl
      else Except.ok (Sum.inr "No recommendations available.") := by
  unfold hybrid_recommendation
  rw [hm]

/-- C3, counterexample to the claim as stated: with requested totals
`n_cluster_recs = n_collab_recs = n_external_recs = 0` the merged set has 5
members — more than the requested total 0 — yet `hybrid_recommendation`
returns the message instead of the sample of exactly 0 rows that the
claim's first branch demands. -/
theorem C3_counterexample :
    hybrid_recommendation "t1" dfFive 0 0 0 [0, 1, 2, 3, 4] [] []
        (fun _ => some []) [] =
      Except.ok (Sum.inr "No recommendations available.") ∧
    fivePairs.length > 0 + 0 + 0 ∧
    hybridMerged "t1" dfFive 0 [0, 1, 2, 3, 4] [] [] (fun _ => some []) =
      Except.ok fivePairs := by
  refine ⟨?_, by decide, ?_⟩
  · simp [hybrid_recommendation, hybridMerged, recommend_from_cluster,
      recommend_collaborative, collabRows, spotify_external_recommendations,
      sampleDF, dedupByKey, dfFive, Except.map]
  · simp [hybridMerged, recommend_from_cluster, recommend_collaborative,
      collabRows, spotify_external_recommendations, sampleDF, dedupByKey,
      dfFive, Except.map, fivePairs]

/-- C3 (amended): writing `combined` for the merged deduplicated set and
`total` for `n_cluster_recs + n_collab_recs + n_external_recs`, the final
step of `hybrid_recommendation` returns, when `total` is positive: a sample
of exactly `total` distinct members of `combined` if `|combined| > total`,
and a permutation of the whole of `combined` if `1 ≤ |combined| ≤ total`
(sampling never demands more rows than available); it returns the message
"No recommendations available." exactly when `|combined| = 0` — or when
`total = 0`, the case the original claim gets wrong. -/
theorem C3_theorem (track_id : String) (df : List CRow)
    (n_cluster_recs n_collab_recs n_external_recs : Nat)
    (clusterSel finalSel : List Nat) (cols : List String) (ranking : List Nat)
    (fetch : Nat → Option (List TrackRec)) (combined : List Pair)
    (hm : hybridMerged track_id df n_collab_recs clusterSel cols ranking fetch =
      Except.ok combined)
    (hsel : sampleOk
      (min combined.length (n_cluster_recs + n_collab_recs + n_external_recs))
      combined.length finalSel) :
    (combined.length > n_cluster_recs + n_collab_recs + n_external_recs →
      0 < n_cluster_recs + n_collab_recs + n_external_recs →
      ∃ l, hybrid_recommendation track_id df n_cluster_recs n_collab_recs
          n_external_recs clusterSel cols ranking fetch finalSel =
          Except.ok (Sum.inl l) ∧
        l.length = n_cluster_recs + n_collab_recs + n_external_recs ∧
        l.Nodup ∧ ∀ p ∈ l, p ∈ combined) ∧
    (1 ≤ combined.length →
      combined.length ≤ n_cluster_recs + n_collab_recs + n_external_recs →
      ∃ l, hybrid_recommendation track_id df n_cluster_recs n_collab_recs
          n_external_recs clusterSel cols ranking fetch finalSel =
          Except.ok (Sum.inl l) ∧ l.Perm combined) ∧
    ((combined.length = 0 ∨ n_cluster_recs + n_collab_recs + n_external_recs = 0) →
      hybrid_recommendation track_id df n_cluster_recs n_collab_recs
          n_external_recs clusterSel cols ranking fetch finalSel =
        Except.ok (Sum.inr "No recommendations available.")) := by
  have hred := hybrid_recommendation_reduce n_cluster_recs n_external_recs finalSel hm
  refine ⟨?_, ?_, ?_⟩
  · intro hgt hpos
    have hminT : min combined.length
        (n_cluster_recs + n_collab_recs + n_external_recs) =
        n_cluster_recs + n_collab_recs + n_external_recs :=
      Nat.min_eq_right (Nat.le_of_lt hgt)
    refine ⟨finalSel.filterMap fun i => combined[i]?, ?_, ?_, ?_, ?_⟩
    · rw [hred, if_pos (by omega), sampleDF, if_pos (Nat.min_le_left _ _)]
      rfl
    · rw [sample_length combined finalSel hsel.2.2, hsel.1, hminT]
    · exact nodup_of_subperm (sample_subperm combined hsel.2.1 hsel.2.2)
        (hybridMerged_ok_nodup hm)
    · intro p hp
      exact (sample_subperm combined hsel.2.1 hsel.2.2).subset hp
  · intro hge hle
    have hminL : min combined.length
        (n_cluster_recs + n_collab_recs + n_external_recs) = combined.length :=
      Nat.min_eq_left hle
    refine ⟨finalSel.filterMap fun i => combined[i]?, ?_, ?_⟩
    · rw [hred, if_pos (by omega), sampleDF, if_pos (Nat.min_le_left _ _)]
      rfl
    · apply sample_perm
      rw [hminL] at hsel
      exact hsel
  · intro hzero
    rw [hred, if_neg (by omega)]

/-- C3 witness: the amended statement at concrete inputs — a merged set of
5 pairs against a requested total of 3 (the `|combined| > total` branch). -/
theorem C3_witness :
    (fivePairs.length > 3 + 0 + 0 → 0 < 3 + 0 + 0 →
      ∃ l, hybrid_recommendation "t1" dfFive 3 0 0 [0, 1, 2, 3, 4] [] []
          (fun _ => some []) [2, 0, 1] = Except.ok (Sum.inl l) ∧
        l.length = 3 + 0 + 0 ∧ l.Nodup ∧ ∀ p ∈ l, p ∈ fivePairs) ∧
    (1 ≤ fivePairs.length → fivePairs.length ≤ 3 + 0 + 0 →
      ∃ l, hybrid_recommendation "t1" dfFive 3 0 0 [0, 1, 2, 3, 4] [] []
          (fun _ => some []) [2, 0, 1] = Except.ok (Sum.inl l) ∧
        l.Perm fivePairs) ∧
    ((fivePairs.length = 0 ∨ 3 + 0 + 0 = 0) →
      hybrid_recommendation "t1" dfFive 3 0 0 [0, 1, 2, 3, 4] [] []
          (fun _ => some []) [2, 0, 1] =
        Except.ok (Sum.inr "No recommendations available.")) :=
  C3_theorem "t1" dfFive 3 0 0 [0, 1, 2, 3, 4] [2, 0, 1] [] [] (fun _ => some [])
    fivePairs
    (by simp [hybridMerged, recommend_from_cluster, recommend_collaborative,
      collabRows, spotify_external_recommendations, sampleDF, dedupByKey,
      dfFive, Except.map, fivePairs])
    ⟨by decide, by decide, by decide⟩

/-- C4, counterexample to the claim as stated: with every external call
raising, the collaborative signal for `t1` is non-empty, yet
`hybrid_recommendation` does not return results — the cluster lookup's
sampling error (a singleton cluster) propagates and aborts the whole
query. -/
theorem C4_counterexample :
    recommend_collaborative "t1" dfTwo ["t1", "t2"] [0, 1] 1 = [("N2", "A2")] ∧
    hybrid_recommendation "t1" dfTwo 5 1 5 [] ["t1", "t2"] [0, 1]
        (fun _ => none) [] =
      Except.error
        "Cannot take a larger sample than population when 'replace=False'" := by
  constructor
  · decide
  · decide

/-- C4 (amended): when every external call raises,
`spotify_external_recommendations` returns the empty list instead of
propagating, and `hybrid_recommendation` (for a positive requested total)
still returns a non-empty result whenever the merged set built from the
remaining two signals is non-empty; the "no recommendations available"
message implies that the merged set — hence each of the three signal
sources — was empty.  This degradation only holds when the cluster lookup
itself succeeds: its error (cluster smaller than 5) aborts the query even
when the collaborative signal is non-empty, which the original claim
overlooks. -/
theorem C4_theorem (track_id : String) (df : List CRow)
    (n_cluster_recs n_collab_recs n_external_recs : Nat)
    (clusterSel finalSel : List Nat) (cols : List String) (ranking : List Nat)
    (fetch : Nat → Option (List TrackRec)) (combined : List Pair)
    (hfail : ∀ limit, fetch limit = none)
    (hm : hybridMerged track_id df n_collab_recs clusterSel cols ranking fetch =
      Except.ok combined)
    (hsel : sampleOk
      (min combined.length (n_cluster_recs + n_collab_recs + n_external_recs))
      combined.length finalSel)
    (htot : 0 < n_cluster_recs + n_collab_recs + n_external_recs) :
    spotify_external_recommendations fetch 20 = [] ∧
    (combined ≠ [] →
      ∃ l, hybrid_recommendation track_id df n_cluster_recs n_collab_recs
          n_external_recs clusterSel cols ranking fetch finalSel =
          Except.ok (Sum.inl l) ∧ l ≠ []) ∧
    (∀ m, hybrid_recommendation track_id df n_cluster_recs n_collab_recs
        n_external_recs clusterSel cols ranking fetch finalSel =
        Except.ok (Sum.inr m) → combined = []) ∧
    (combined = [] →
      recommend_collaborative track_id df cols ranking n_collab_recs = [] ∧
      ∀ cl, recommend_from_cluster track_id df clusterSel = Except.ok cl →
        cl = []) := by
  have hext : spotify_external_recommendations fetch 20 = [] := by
    rw [spotify_external_recommendations, hfail 20]
  have hred := hybrid_recommendation_reduce n_cluster_recs n_external_recs finalSel hm
  have hb : combined ≠ [] →
      ∃ l, hybrid_recommendation track_id df n_cluster_recs n_collab_recs
          n_external_recs clusterSel cols ranking fetch finalSel =
          Except.ok (Sum.inl l) ∧ l ≠ [] := by
    intro hne
    have hlen : 0 < combined.length := List.length_pos.mpr hne
    refine ⟨finalSel.filterMap fun i => combined[i]?, ?_, ?_⟩
    · rw [hred, if_pos (by omega), sampleDF, if_pos (Nat.min_le_left _ _)]
      rfl
    · apply List.ne_nil_of_length_pos
      rw [sample_length combined finalSel hsel.2.2, hsel.1]
      omega
  refine ⟨hext, hb, ?_, ?_⟩
  · intro m hmsg
    by_contra hne
    rcases hb hne with ⟨l, hl, -⟩
    rw [hl] at hmsg
    exact Sum.noConfusion (Except.ok.inj hmsg)
  · intro hcemp
    rcases hybridMerged_ok_elim hm with ⟨cl, hclok, hcomb⟩
    rw [hcemp] at hcomb
    have hnil := dedupByKey_eq_nil hcomb.symm
    constructor
    · exact (List.append_eq_nil.mp (List.append_eq_nil.mp hnil).1).2
    · intro cl2 hcl2
      rw [hclok] at hcl2
      rw [← Except.ok.inj hcl2]
      exact (List.append_eq_nil.mp (List.append_eq_nil.mp hnil).1).1

/-- C4 witness: the amended statement at concrete inputs — an
always-raising fetch, a healthy 5-row cluster, and a positive total. -/
theorem C4_witness :
    spotify_external_recommendations (fun _ => none) 20 = [] ∧
    (fivePairs ≠ [] →
      ∃ l, hybrid_recommendation "t1" dfFive 1 0 0 [0, 1, 2, 3, 4] [] []
          (fun _ => none) [0] = Except.ok (Sum.inl l) ∧ l ≠ []) ∧
    (∀ m, hybrid_recommendation "t1" dfFive 1 0 0 [0, 1, 2, 3, 4] [] []
        (fun _ => none) [0] = Except.ok (Sum.inr m) → fivePairs = []) ∧
    (fivePairs = [] →
      recommend_collaborative "t1" dfFive [] [] 0 = [] ∧
      ∀ cl, recommend_from_cluster "t1" dfFive [0, 1, 2, 3, 4] = Except.ok cl →
        cl = []) :=
  C4_theorem "t1" dfFive 1 0 0 [0, 1, 2, 3, 4] [0] [] [] (fun _ => none)
    fivePairs (fun _ => rfl)
    (by simp [hybridMerged, recommend_from_cluster, recommend_collaborative,
      collabRows, spotify_external_recommendations, sampleDF, dedupByKey,
      dfFive, Except.map, fivePairs])
    ⟨by decide, by decide, by decide⟩ (by decide)

/-- C5, counterexample to the claim as stated: with collaborative and
external signals empty, the merged set that `hybrid_recommendation` builds
holds 5 tracks, all contributed by the cluster signal — more than an
`n_cluster_recs` of, say, 3 — because the merge (`hybridMerged`) never
receives `n_cluster_recs` at all (`recommend_from_cluster` is called with
no count, src/backend.py line 143). -/
theorem C5_counterexample :
    hybridMerged "t1" dfFive 0 [0, 1, 2, 3, 4] [] [] (fun _ => some []) =
      Except.ok fivePairs ∧
    recommend_collaborative "t1" dfFive [] [] 0 = [] ∧
    spotify_external_recommendations (fun _ => some []) 20 = [] ∧
    fivePairs.length = 5 := by
  refine ⟨?_, by decide, by decide, by decide⟩
  simp [hybridMerged, recommend_from_cluster, recommend_collaborative,
    collabRows, spotify_external_recommendations, sampleDF, dedupByKey,
    dfFive, Except.map, fivePairs]

/-- C5 (amended): of the three requested counts only `n_collab_recs`
reaches a signal source.  The cluster signal contributes exactly 5 tracks
(the hard-coded `.sample(5)`, with `n_cluster_recs` ignored); the
collaborative signal contributes at most `n_collab_recs` tracks (for a
table with distinct track ids); and the external signal contributes at most
its `limit` — fixed at the default 20 by the call site, with
`n_external_recs` ignored — provided the external API honours the limit. -/
theorem C5_theorem :
    (∀ (track_id : String) (df : List CRow) (sel : List Nat) (cluster_id : Int)
      (rest : List Int) (cl : List Pair),
      (df.filter fun r => decide (r.track_id = track_id)).map CRow.cluster =
        cluster_id :: rest →
      sampleOk 5 ((df.filter fun r => decide (r.cluster = cluster_id)).length) sel →
      recommend_from_cluster track_id df sel = Except.ok cl →
      cl.length = 5) ∧
    (∀ (track_id : String) (df : List CRow) (cols : List String)
      (ranking : List Nat) (n_recommendations : Nat),
      keysDistinct CRow.track_id df →
      (recommend_collaborative track_id df cols ranking n_recommendations).length ≤
        n_recommendations) ∧
    (∀ (fetch : Nat → Option (List TrackRec)) (limit : Nat),
      (∀ k l, fetch k = some l → l.length ≤ k) →
      (spotify_external_recommendations fetch limit).length ≤ limit) := by
  refine ⟨?_, ?_, ?_⟩
  · intro track_id df sel cluster_id rest cl hfound hsel hok
    rcases hsel with ⟨hlen, hnd, hlt⟩
    have hle : 5 ≤ (df.filter fun r => decide (r.cluster = cluster_id)).length := by
      have hsub : List.Subperm sel (List.range
          (df.filter fun r => decide (r.cluster = cluster_id)).length) :=
        List.subperm_of_subset hnd fun i hi => List.mem_range.mpr (hlt i hi)
      have hll := hsub.length_le
      simpa [hlen] using hll
    simp only [recommend_from_cluster, hfound] at hok
    rw [sampleDF, if_pos hle] at hok
    have h2 := Except.ok.inj hok
    rw [← h2, List.length_map, sample_length _ _ hlt, hlen]
  · intro track_id df cols ranking n hdf
    rw [recommend_collaborative, List.length_map, collabRows]
    by_cases hin : track_id ∈ cols
    · simp only [hin, ite_true]
      have hnodup : ((df.filter fun r => decide (r.track_id ∈
          ((ranking.take (n + 1)).drop 1).filterMap fun i => cols[i]?)).map
            CRow.track_id).Nodup := by
        have hp : keysDistinct CRow.track_id (df.filter fun r =>
            decide (r.track_id ∈
              ((ranking.take (n + 1)).drop 1).filterMap fun i => cols[i]?)) :=
          keysDistinct_filter _ _ _ hdf
        exact hp.map _ fun a b hab => hab
      have hsubset : ∀ x ∈ (df.filter fun r => decide (r.track_id ∈
          ((ranking.take (n + 1)).drop 1).filterMap fun i => cols[i]?)).map
            CRow.track_id,
          x ∈ ((ranking.take (n + 1)).drop 1).filterMap fun i => cols[i]? := by
        intro x hx
        rcases List.mem_map.mp hx with ⟨r, hr, hk⟩
        have hpr := List.of_mem_filter hr
        simp only [decide_eq_true_eq] at hpr
        exact hk ▸ hpr
      have hsp := List.subperm_of_subset hnodup hsubset
      have hle1 := hsp.length_le
      rw [List.length_map] at hle1
      have h3 := List.length_filterMap_le (fun i => cols[i]?)
        ((ranking.take (n + 1)).drop 1)
      have h4 : ((ranking.take (n + 1)).drop 1).length ≤ n := by
        rw [List.length_drop]
        have h5 := List.length_take_le (n + 1) ranking
        omega
      omega
    · simp only [hin, ite_false, List.length_nil]
      exact Nat.zero_le n
  · intro fetch limit hyp
    rw [spotify_external_recommendations]
    cases h : fetch limit with
    | none => simp
    | some l => exact hyp limit l h

/-- C5 witness: the amended statement at concrete inputs — the concrete
cluster sample has exactly 5 members, a collaborative request for 1
neighbour yields at most 1 row, and an external fetch honouring the limit
yields at most 20. -/
theorem C5_witness :
    fivePairs.length = 5 ∧
    (recommend_collaborative "t1" dfFive ["t1", "t2"] [0, 1] 1).length ≤ 1 ∧
    (spotify_external_recommendations (fun _ => some []) 20).length ≤ 20 :=
  ⟨C5_theorem.1 "t1" dfFive [0, 1, 2, 3, 4] 0 [] fivePairs (by decide)
      ⟨by decide, by decide, by decide⟩ (by decide),
   C5_theorem.2.1 "t1" dfFive ["t1", "t2"] [0, 1] 1 (by unfold keysDistinct; decide),
   C5_theorem.2.2 (fun _ => some []) 20 fun k l h => by
     injection h with h2
     rw [← h2]
     exact Nat.zero_le k⟩

end MusicRec
